import Mathlib

/-!
# apkInstaller: a shallow embedding of `apkInstaller.cpp`

The program is embedded for the POSIX build (the `#else` branches of the two
`#ifdef _WIN32` blocks) with a 64-bit `size_t` and the "C" locale.  A
`std::string` and an `fs::path` are both lists of characters; the file system,
the subprocess layer and the console are explicit: read-only oracles live in
`Env`, everything the program changes lives in `World`, and every function
with an effect takes a world and returns its result with the world after it.
Library calls (`std::filesystem`, `std::string::find`, `std::getline`,
`operator>>`, `std::quoted`) are embedded by what the C++ standard says they
return; exceptions of the file-system calls are not modelled, so a query or a
traversal always yields a value.
-/

namespace apkInstaller

/-! ## Strings -/

/-- A `std::string`, also used for an `fs::path` in its native (POSIX) format. -/
abbrev Str := List Char

/-- The C function `::tolower` in the "C" locale: `A`..`Z` go to `a`..`z`. -/
def tolower (c : Char) : Char :=
  if 65 ≤ c.toNat ∧ c.toNat ≤ 90 then Char.ofNat (c.toNat + 32) else c

/-- Source `toLower`: a copy of `s` with `::tolower` applied to every character. -/
def toLower (s : Str) : Str := s.map tolower

/-- The call `hay.find(needle)` of `std::string`: the first position where
`needle` occurs in `hay`, `none` standing for `npos`. -/
def find (hay needle : Str) : Option Nat :=
  match hay with
  | [] => if needle = [] then some 0 else none
  | c :: t => if needle.isPrefixOf (c :: t) then some 0 else (find t needle).map (· + 1)

/-- The call `s.find(ch)` of `std::string` for a single character. -/
def findChar (s : Str) (ch : Char) : Option Nat :=
  match s with
  | [] => none
  | c :: t => if c = ch then some 0 else (findChar t ch).map (· + 1)

/-- The call `s.substr(0, pos)` where `pos` is the result of a `find`: `npos`
keeps the whole string. -/
def substr0 (s : Str) (pos : Option Nat) : Str :=
  match pos with
  | none => s
  | some n => s.take n

/-- The loop `while (std::getline(iss, line))` over the unread text `s`, with
`cur` the characters of the current line read so far: a newline ends the
line; at the end of the text a line counts when it is not empty. -/
def getlinesAux (s cur : Str) : List Str :=
  match s with
  | [] => if cur = [] then [] else [cur]
  | c :: t => if c = '\n' then cur :: getlinesAux t [] else getlinesAux t (cur ++ [c])

/-- The lines `std::getline` reads from a text, in order. -/
def getlines (s : Str) : List Str := getlinesAux s []

/-! ## Paths (`std::filesystem::path`, POSIX generic format) -/

/-- The method `fs::path::filename()`: what follows the last directory separator. -/
def filename (p : Str) : Str :=
  (p.reverse.takeWhile (fun c => c != '/')).reverse

/-- The method `fs::path::extension()`: empty for the file names `.` and `..`,
for a name without a period and for a name whose only period is its first
character; otherwise the part of the file name from its last period on. -/
def extension (p : Str) : Str :=
  let f := filename p
  let tail := (f.reverse.takeWhile (fun c => c != '.')).reverse
  if f = ['.'] ∨ f = ['.', '.'] then []
  else if f.all (fun c => c != '.') then []
  else if f.length = tail.length + 1 then []
  else '.' :: tail

/-- The text `operator<<` writes for an `fs::path`: `std::quoted` of the
string, a backslash before every double quote and backslash. -/
def quoted (p : Str) : Str :=
  '"' :: (p.flatMap (fun c => if c = '"' ∨ c = '\\' then ['\\', c] else [c])) ++ ['"']

/-! ## Environment and state -/

/-- What `fs::status` reports for a path, symbolic links followed. -/
inductive FileType where
  | notFound
  | regular
  | directory
  | other
  deriving DecidableEq, Repr

/-- One `fs::directory_entry` of a traversal: its path and its file type. -/
structure DirEntry where
  path : Str
  type : FileType
  deriving DecidableEq, Repr

/-- The parts of the outside world the program only queries.
* `status p`: the file type of path `p`;
* `walk d`: the entries `fs::recursive_directory_iterator(d)` yields, in order,
  at every depth;
* `system cmd`: the value `std::system(cmd)` returns;
* `popen cmd`: the text read from `popen(cmd, "r")` until end of file (a text
  without NUL characters), `none` when the pipe cannot be opened. -/
structure Env where
  status : Str → FileType
  walk : Str → List DirEntry
  system : Str → Int
  popen : Str → Option Str

/-- The parts of the outside world the program changes: the unread console
input and the fail bit of `std::cin`, the text written to `std::cout` and
`std::cerr`, and the subprocess commands run so far (by `std::system` or
`popen`), oldest first.  The field `installs` is a ghost record kept for the
proofs: the arguments `installApk` has been called with, oldest first. -/
structure World where
  cin : Str
  cinFail : Bool
  cout : Str
  cerr : Str
  cmds : List Str
  installs : List Str
  deriving DecidableEq, Repr

/-- Write to `std::cout`. -/
def putOut (w : World) (s : Str) : World := { w with cout := w.cout ++ s }

/-- Write to `std::cerr`. -/
def putErr (w : World) (s : Str) : World := { w with cerr := w.cerr ++ s }

/-- The call `std::system(cmd)`: the command is run and its status returned. -/
def runSystem (env : Env) (cmd : Str) (w : World) : Int × World :=
  (env.system cmd, { w with cmds := w.cmds ++ [cmd] })

/-- The query `fs::exists(p)`. -/
def fsExists (env : Env) (p : Str) : Bool := env.status p != FileType.notFound

/-- The query `fs::is_directory(p)`. -/
def isDirectory (env : Env) (p : Str) : Bool := env.status p == FileType.directory

/-- The query `fs::is_regular_file(p)`. -/
def isRegularFile (env : Env) (p : Str) : Bool := env.status p == FileType.regular

/-- The method `entry.is_regular_file()` of a directory entry. -/
def DirEntry.isRegularFile (e : DirEntry) : Bool := e.type == FileType.regular

/-! ## Reading a `size_t` from `std::cin` -/

/-- Largest value of `size_t` (64-bit build). -/
def SIZE_MAX : Nat := 2 ^ 64 - 1

/-- White space in the "C" locale, skipped by formatted input. -/
def isSpace (c : Char) : Bool :=
  c = ' ' ∨ c = '\t' ∨ c = '\n' ∨ c = '\x0b' ∨ c = '\x0c' ∨ c = '\r'

/-- Decimal digit test. -/
def isDigit (c : Char) : Bool := 48 ≤ c.toNat ∧ c.toNat ≤ 57

/-- Value of a run of decimal digits, most significant first. -/
def digitsValue (ds : Str) : Nat :=
  ds.foldl (fun acc d => 10 * acc + (d.toNat - 48)) 0

/-- The conversion that ends the extraction of a `size_t`: the value stored
for the digits `ds` read after the sign, and whether the fail bit is set.
Without a digit the value is 0 and the extraction fails; a value above
`SIZE_MAX` stores `SIZE_MAX` and fails; a minus sign negates modulo `2 ^ 64`. -/
def convertSizeT (neg : Bool) (ds : Str) : Nat × Bool :=
  if ds = [] then (0, true)
  else if digitsValue ds > SIZE_MAX then (SIZE_MAX, true)
  else if neg then ((2 ^ 64 - digitsValue ds) % 2 ^ 64, false)
  else (digitsValue ds, false)

/-- The statements `size_t choice = 0; std::cin >> choice;`: the value left in
`choice` and the stream afterwards.  Extraction skips white space, takes an
optional sign and then the longest run of decimal digits, and converts it.
A stream whose fail bit is already set is left alone and `choice` keeps
its 0. -/
def cinReadSizeT (w : World) : Nat × World :=
  if w.cinFail then (0, w)
  else
    let s := w.cin.dropWhile isSpace
    let neg : Bool := s.head? = some '-'
    let s1 := if s.head? = some '-' ∨ s.head? = some '+' then s.tail else s
    let r := convertSizeT neg (s1.takeWhile isDigit)
    (r.1, { w with cin := s1.dropWhile isDigit, cinFail := r.2 })

/-! ## The program -/

/-- Source `printHelp`. -/
def printHelp (progName : Str) (w : World) : World :=
  putOut w
    ("Usage:\n".toList
      ++ "  ".toList ++ progName ++ " -f <apk-file>\n".toList
      ++ "  ".toList ++ progName ++ " -d <directory>\n\n".toList
      ++ "Options:\n".toList
      ++ "  -f <apk-file>    Path to a single APK file to install\n".toList
      ++ "  -d <directory>   Path to a directory which contains one or more APKs\n\n".toList
      ++ "Note:\n".toList
      ++ "  This tool is an apkInstaller. You must provide either the path to an APK\n".toList
      ++ "  file with -f, or the path to a directory with -d where at least one APK\n".toList
      ++ "  file is located.\n".toList)

/-- The command of the availability check (the `#else` branch). -/
def adbVersionCmd : Str := "adb version >/dev/null 2>&1".toList

/-- The command `getAdbDevices` opens a pipe to. -/
def adbDevicesCmd : Str := "adb devices".toList

/-- The message `checkAdbInstalled` prints when the check fails. -/
def adbMissingMessage : Str :=
  "Error: adb is not installed or not in PATH.\n".toList
    ++ "Please install Android Platform Tools.\n".toList
    ++ "  - Linux: sudo apt install adb\n".toList
    ++ "  - macOS: brew install android-platform-tools\n".toList
    ++ "  - Windows: Install from https://developer.android.com/studio/releases/platform-tools\n".toList

/-- Source `checkAdbInstalled` (the `#else` branch). -/
def checkAdbInstalled (env : Env) (w : World) : Bool × World :=
  let (ret, w1) := runSystem env adbVersionCmd w
  if ret ≠ 0 then (false, putErr w1 adbMissingMessage)
  else (true, w1)

/-- The parse step of `getAdbDevices` (from `std::istringstream iss(result)`
to the end of the `while` loop): every line that has `device` and has no
`List` appends its part before the first tab to `devices`. -/
def parseDevices (result : Str) : List Str :=
  (getlines result).foldl (fun devices line =>
    if (find line "device".toList).isSome && (find line "List".toList).isNone then
      devices ++ [substr0 line (findChar line '\t')]
    else devices) []

/-- Source `getAdbDevices`; `env.popen` gives the text the `fgets` loop
gathers in `result`. -/
def getAdbDevices (env : Env) (w : World) : List Str × World :=
  let w1 := { w with cmds := w.cmds ++ [adbDevicesCmd] }
  match env.popen adbDevicesCmd with
  | none => ([], putErr w1 "Error: Failed to run adb devices.\n".toList)
  | some result => (parseDevices result, w1)

/-- The numbered listing both prompts print: `  [i+1] item` and a newline for
each item, `fmt` being how `operator<<` writes an item. -/
def listing (fmt : Str → Str) (items : List Str) (i : Nat) : Str :=
  match items with
  | [] => []
  | x :: rest =>
    "  [".toList ++ Nat.toDigits 10 (i + 1) ++ "] ".toList ++ fmt x ++ "\n".toList
      ++ listing fmt rest (i + 1)

/-- The text both prompts print: a heading, the numbered listing, and the
request for a number between 1 and the number of items. -/
def promptText (heading request : Str) (fmt : Str → Str) (items : List Str) : Str :=
  heading ++ listing fmt items 0 ++ request ++ Nat.toDigits 10 items.length ++ "): ".toList

/-- The command string `installApk` builds: the device and the package path,
each between double quotes and otherwise copied as they are. -/
def installCommand (targetDevice apkFile : Str) : Str :=
  "adb -s \"".toList ++ targetDevice ++ "\" install \"".toList ++ apkFile ++ "\"".toList

/-- The last four lines of `installApk`: build the command, announce it, run
it, and report whether its status is zero. -/
def runInstall (env : Env) (targetDevice apkFile : Str) (w : World) : Bool × World :=
  let command := installCommand targetDevice apkFile
  let w1 := putOut w ("Running: ".toList ++ command ++ "\n".toList)
  let (ret, w2) := runSystem env command w1
  (ret == 0, w2)

/-- Source `installApk`; entering it is noted in the ghost record `installs`. -/
def installApk (env : Env) (apkFile : Str) (w : World) : Bool × World :=
  let (ok, w1) := checkAdbInstalled env { w with installs := w.installs ++ [apkFile] }
  if !ok then (false, w1)
  else
    let (devices, w2) := getAdbDevices env w1
    if devices.isEmpty then (false, putErr w2 "Error: No adb devices found.\n".toList)
    else if devices.length = 1 then runInstall env (devices.headD []) apkFile w2
    else
      let w3 := putOut w2
        (promptText "Multiple devices detected:\n".toList "Select device (1-".toList id devices)
      let (choice, w4) := cinReadSizeT w3
      if choice = 0 ∨ choice > devices.length then (false, putErr w4 "Invalid choice.\n".toList)
      else runInstall env (devices.getD (choice - 1) []) apkFile w4

/-- Source `findApkFiles`: the loop over the traversal, with `push_back` for
every regular file whose lowercased extension is `.apk`. -/
def findApkFiles (env : Env) (dirPath : Str) : List Str :=
  (env.walk dirPath).foldl (fun apkFiles entry =>
    if entry.isRegularFile && toLower (extension entry.path) == ".apk".toList then
      apkFiles ++ [entry.path]
    else apkFiles) []

/-- The test of the "signed" loop in `selectApkFile`:
`toLower(file.filename().string()).find("signed") != npos`. -/
def isSigned (file : Str) : Bool :=
  (find (toLower (filename file)) "signed".toList).isSome

/-- The "signed" loop of `selectApkFile`: the file it returns, `none` when the
loop runs to its end. -/
def firstSigned (apkFiles : List Str) : Option Str :=
  match apkFiles with
  | [] => none
  | file :: rest => if isSigned file then some file else firstSigned rest

/-- Source `selectApkFile`; the empty path is the `return {}`. -/
def selectApkFile (apkFiles : List Str) (w : World) : Str × World :=
  if apkFiles.length = 1 then (apkFiles.headD [], w)
  else
    match firstSigned apkFiles with
    | some file => (file, w)
    | none =>
      let w1 := putOut w
        (promptText "Multiple APK files found:\n".toList "Select APK to use (1-".toList quoted
          apkFiles)
      let (choice, w2) := cinReadSizeT w1
      if choice = 0 ∨ choice > apkFiles.length then ([], putErr w2 "Invalid choice.\n".toList)
      else (apkFiles.getD (choice - 1) [], w2)

/-- Source `handleFileOption`. -/
def handleFileOption (env : Env) (filePath : Str) (w : World) : Bool × World :=
  if !fsExists env filePath then
    (false, putErr w ("Error: File does not exist: ".toList ++ quoted filePath ++ "\n".toList))
  else if toLower (extension filePath) ≠ ".apk".toList then
    (false, putErr w ("Error: Not an APK file: ".toList ++ quoted filePath ++ "\n".toList))
  else
    installApk env filePath (putOut w ("Using APK file: ".toList ++ quoted filePath ++ "\n".toList))

/-- Source `handleDirectoryOption`. -/
def handleDirectoryOption (env : Env) (dirPath : Str) (w : World) : Bool × World :=
  if !isDirectory env dirPath then
    (false, putErr w ("Error: Not a directory: ".toList ++ dirPath ++ "\n".toList))
  else
    let apkFiles := findApkFiles env dirPath
    if apkFiles.isEmpty then
      (false, putErr w ("Error: No APK files found in directory: ".toList ++ dirPath ++ "\n".toList))
    else
      let (chosenApk, w1) := selectApkFile apkFiles w
      if chosenApk.isEmpty then (false, putErr w1 "No APK selected.\n".toList)
      else
        installApk env chosenApk
          (putOut w1 ("Using APK file: ".toList ++ quoted chosenApk ++ "\n".toList))

/-- Source `main`: `progName` is `argv[0]`, `args` the tokens after it, so
`argc` is `args.length + 1`; the result is the exit status. -/
def main (env : Env) (progName : Str) (args : List Str) (w : World) : Int × World :=
  if args.length + 1 ≠ 3 then (1, printHelp progName w)
  else
    let option := args.getD 0 []
    let path := args.getD 1 []
    if option = "-f".toList then
      let (success, w1) := handleFileOption env path w
      (if success then 0 else 3, w1)
    else if option = "-d".toList then
      let (success, w1) := handleDirectoryOption env path w
      (if success then 0 else 3, w1)
    else (2, printHelp progName w)

/-! ## Vocabulary of the specification -/

/-- The sign in front of a numeral: nothing or `+` (then `neg` is false), or
`-` (then `neg` is true). -/
def isSign (sign : Str) (neg : Bool) : Prop :=
  (sign = [] ∧ neg = false) ∨ (sign = ['+'] ∧ neg = false) ∨ (sign = ['-'] ∧ neg = true)

/-- The console input begins with a numeral: optional white space, an optional
sign (`neg` tells a minus), then the non-empty run of decimal digits `ds`,
then the end of the input or any character that is not a digit.  Nothing is
asked of what follows the digits: `2abc` and `1.5` begin with the numerals
`2` and `1`. -/
def beginsWithNumeral (input : Str) (neg : Bool) (ds : Str) : Prop :=
  ∃ ws sign rest : Str, input = ws ++ sign ++ ds ++ rest ∧ (∀ x ∈ ws, isSpace x = true) ∧
    isSign sign neg ∧ ds ≠ [] ∧ (∀ x ∈ ds, isDigit x = true) ∧
    (∀ x ∈ rest.head?, isDigit x = false)

/-- The console input has a leading numeral: after optional white space and
at most one sign comes a decimal digit. -/
def hasLeadingNumeral (input : Str) : Bool :=
  match input.dropWhile isSpace with
  | [] => false
  | c :: t =>
    isDigit c || ((c == '+' || c == '-') && (match t with
      | [] => false
      | d :: _ => isDigit d))

/-- The first token of the console input: what stands between the leading
white space and the next white space. -/
def firstToken (input : Str) : Str :=
  (input.dropWhile isSpace).takeWhile (fun c => !isSpace c)

/-- The token is an integer numeral: an optional sign, then one or more
decimal digits and nothing else. -/
def isIntegerToken (tok : Str) : Bool :=
  match tok with
  | [] => false
  | c :: t =>
    if c = '+' ∨ c = '-' then !t.isEmpty && t.all isDigit
    else isDigit c && t.all isDigit

/-- The file name of `file` contains `signed` under case-insensitive
comparison: some contiguous part of the name lowercases to `signed`. -/
def nameHasSigned (file : Str) : Prop :=
  ∃ pre mid post : Str, filename file = pre ++ mid ++ post ∧ toLower mid = "signed".toList

/-- The world in which `selectApkFile` reads the choice: the prompt has been
printed. -/
def apkPromptWorld (apkFiles : List Str) (w : World) : World :=
  putOut w
    (promptText "Multiple APK files found:\n".toList "Select APK to use (1-".toList quoted
      apkFiles)

/-- The device list `getAdbDevices` parses in environment `env`. -/
def devicesOf (env : Env) : List Str :=
  match env.popen adbDevicesCmd with
  | none => []
  | some result => parseDevices result

/-- The world after `installApk` has been entered for `apkFile` and the
availability check and the device listing have been run, the list not being
empty. -/
def afterListing (apkFile : Str) (w : World) : World :=
  { w with
    installs := w.installs ++ [apkFile]
    cmds := w.cmds ++ [adbVersionCmd, adbDevicesCmd] }

/-- The world in which `installApk` reads the choice of a device: the prompt
has been printed. -/
def devicePromptWorld (devices : List Str) (apkFile : Str) (w : World) : World :=
  putOut (afterListing apkFile w)
    (promptText "Multiple devices detected:\n".toList "Select device (1-".toList id devices)

/-- The installer stops after the device listing: `installApk` returns false
and has run the availability check and the listing and no other command. -/
def noInstallRun (env : Env) (apkFile : Str) (w : World) : Prop :=
  (installApk env apkFile w).1 = false ∧
  (installApk env apkFile w).2.cmds = w.cmds ++ [adbVersionCmd, adbDevicesCmd]

/-- The installer targets device `d`: after the availability check and the
listing, `installApk` has run exactly one more command, the install command
for `d` and `apkFile`. -/
def installRunsOn (env : Env) (apkFile : Str) (w : World) (d : Str) : Prop :=
  (installApk env apkFile w).2.cmds
    = w.cmds ++ [adbVersionCmd, adbDevicesCmd,
        "adb -s \"".toList ++ d ++ "\" install \"".toList ++ apkFile ++ "\"".toList]

/-- Directory mode gives up after the selection among `apkFiles` in world `w`:
`selectApkFile` returns the empty path ("none selected"), and every call of
`handleDirectoryOption` whose scan found `apkFiles` then returns false, calls
no installer, runs no command, and prints no further prompt and reads no
further input after the one selection. -/
def selectionRejected (apkFiles : List Str) (w : World) : Prop :=
  (selectApkFile apkFiles w).1 = [] ∧
  ∀ (env : Env) (dirPath : Str), isDirectory env dirPath = true →
    findApkFiles env dirPath = apkFiles →
      (handleDirectoryOption env dirPath w).1 = false ∧
      (handleDirectoryOption env dirPath w).2.installs = w.installs ∧
      (handleDirectoryOption env dirPath w).2.cmds = w.cmds ∧
      (handleDirectoryOption env dirPath w).2.cout = (selectApkFile apkFiles w).2.cout ∧
      (handleDirectoryOption env dirPath w).2.cin = (selectApkFile apkFiles w).2.cin

/-! ## Sample inputs -/

/-- A device listing as `adb devices` prints it: the header, two devices and
the empty line that ends the listing. -/
def sampleListing : Str :=
  "List of devices attached\nemulator-5554\tdevice\nR58M12345\tdevice\n\n".toList

/-- A sample environment: a directory `/work/apks` holding two package files,
a folder whose name ends in `.apk` and a text file; a directory `/work/pkgs.apk`;
a bridge tool whose every command succeeds and that lists `sampleListing`. -/
def sampleEnv : Env where
  status := fun p =>
    if p = "/work/apks".toList ∨ p = "/work/pkgs.apk".toList then FileType.directory
    else if p = "/work/apks/app-debug.apk".toList then FileType.regular
    else FileType.notFound
  walk := fun d =>
    if d = "/work/apks".toList then
      [⟨"/work/apks/app-debug.apk".toList, FileType.regular⟩,
       ⟨"/work/apks/old.apk".toList, FileType.directory⟩,
       ⟨"/work/apks/old.apk/App-Release.APK".toList, FileType.regular⟩,
       ⟨"/work/apks/notes.txt".toList, FileType.regular⟩]
    else []
  system := fun _ => 0
  popen := fun _ => some sampleListing

/-- The sample environment with a bridge tool whose availability check
succeeds and whose every other command exits with status 1. -/
def sampleEnvInstallFails : Env :=
  { sampleEnv with system := fun cmd => if cmd = adbVersionCmd then 0 else 1 }

/-- A fresh world with the given console input: nothing printed, nothing run. -/
def sampleWorld (input : Str) : World :=
  { cin := input, cinFail := false, cout := [], cerr := [], cmds := [], installs := [] }

/-! ## Lemmas on strings -/

/-- A loop that appends `f x` for every `x` passing `p` computes a filter
followed by a map. -/
theorem foldl_push_eq {α β : Type} (p : α → Bool) (f : α → β) (l : List α) (init : List β) :
    l.foldl (fun acc x => if p x then acc ++ [f x] else acc) init
      = init ++ (l.filter p).map f := by
  induction l generalizing init with
  | nil => simp
  | cons x xs ih =>
    by_cases hp : p x = true
    · simp [List.foldl_cons, hp, ih]
    · simp [List.foldl_cons, hp, ih]

/-- The call `find` succeeds exactly when the needle is a contiguous part of
the string. -/
theorem find_isSome_iff (hay needle : Str) :
    (find hay needle).isSome = true ↔ needle <:+: hay := by
  induction hay with
  | nil =>
    by_cases hn : needle = []
    · simp [find, hn]
    · simp [find, hn]
  | cons c t ih =>
    by_cases hp : needle.isPrefixOf (c :: t) = true
    · have hpre : needle <+: c :: t := List.isPrefixOf_iff_prefix.mp hp
      simp [find, hp, hpre.isInfix]
    · have hpre : ¬ needle <+: c :: t := fun h => hp (List.isPrefixOf_iff_prefix.mpr h)
      have hm : (Option.map (· + 1) (find t needle)).isSome = (find t needle).isSome := by
        cases find t needle <;> rfl
      rw [find, if_neg hp, hm, ih, List.infix_cons_iff]
      constructor
      · intro h
        exact Or.inr h
      · rintro (h | h)
        · exact absurd h hpre
        · exact h

/-- The call `find` fails exactly when the needle is no part of the string. -/
theorem find_isNone_iff (hay needle : Str) :
    (find hay needle).isNone = true ↔ ¬ needle <:+: hay := by
  rw [← find_isSome_iff]
  cases find hay needle <;> simp

/-- The test `find(..) != npos` as a decision of "is a contiguous part". -/
theorem find_isSome_eq (hay needle : Str) :
    (find hay needle).isSome = decide (needle <:+: hay) := by
  rw [Bool.eq_iff_iff, decide_eq_true_eq]
  exact find_isSome_iff hay needle

/-- The test `find(..) == npos` as a decision of "is no contiguous part". -/
theorem find_isNone_eq (hay needle : Str) :
    (find hay needle).isNone = decide (¬ needle <:+: hay) := by
  rw [Bool.eq_iff_iff, decide_eq_true_eq]
  exact find_isNone_iff hay needle

/-- Cutting a string at the position `find` gives for a character keeps the
characters before the first occurrence, or everything when there is none. -/
theorem substr0_findChar (s : Str) (ch : Char) :
    substr0 s (findChar s ch) = s.takeWhile (fun c => c != ch) := by
  induction s with
  | nil => simp [findChar, substr0]
  | cons c t ih =>
    by_cases hc : c = ch
    · simp [findChar, substr0, hc]
    · have hne : (c != ch) = true := by simp [hc]
      rw [List.takeWhile_cons, hne]
      simp only [findChar, hc, if_false, if_true]
      rw [← ih]
      cases findChar t ch <;> simp [substr0]

/-- One round of the `getline` loop with a pending line `cur`: the line read
is `cur` followed by the characters up to the first newline, and the loop
goes on after that newline. -/
theorem getlinesAux_unfold (s cur : Str) (h : s ≠ [] ∨ cur ≠ []) :
    getlinesAux s cur
      = (cur ++ s.takeWhile (fun c => c != '\n'))
          :: getlinesAux (s.dropWhile (fun c => c != '\n')).tail [] := by
  induction s generalizing cur with
  | nil =>
    have hc : cur ≠ [] := by
      rcases h with h | h
      · exact absurd rfl h
      · exact h
    simp [getlinesAux, hc]
  | cons c t ih =>
    by_cases hc : c = '\n'
    · subst hc
      simp [getlinesAux]
    · have hne : (c != '\n') = true := by simp [hc]
      rw [getlinesAux, if_neg hc, ih (cur ++ [c]) (Or.inr (by simp))]
      rw [List.takeWhile_cons, List.dropWhile_cons, hne]
      simp

/-- The first line `std::getline` reads, and what is left for the next call:
the characters up to the first newline, the newline itself being dropped. -/
theorem getlines_unfold (s : Str) (hs : s ≠ []) :
    getlines s
      = s.takeWhile (fun c => c != '\n')
          :: getlines (s.dropWhile (fun c => c != '\n')).tail := by
  unfold getlines
  rw [getlinesAux_unfold s [] (Or.inl hs)]
  simp

/-- A line without a newline, followed by a newline, is read as that line. -/
theorem getlines_line (l rest : Str) (hl : '\n' ∉ l) :
    getlines (l ++ '\n' :: rest) = l :: getlines rest := by
  have hne : l ++ '\n' :: rest ≠ [] := by simp
  have hall : ∀ c ∈ l, (c != '\n') = true := by
    intro c hc
    have : c ≠ '\n' := fun h => hl (h ▸ hc)
    simp [this]
  rw [getlines_unfold _ hne]
  rw [List.takeWhile_append_of_pos hall, List.dropWhile_append_of_pos hall]
  simp

/-! ## Lemmas on reading a number -/

/-- A decimal digit is not white space. -/
theorem isSpace_of_isDigit (c : Char) (h : isDigit c = true) : isSpace c = false := by
  simp only [isDigit, decide_eq_true_eq] at h
  simp only [isSpace, decide_eq_false_iff_not, not_or]
  refine ⟨?_, ?_, ?_, ?_, ?_, ?_⟩ <;> rintro rfl <;> revert h <;> decide

/-- A decimal digit is not a sign. -/
theorem not_sign_of_isDigit (c : Char) (h : isDigit c = true) : c ≠ '-' ∧ c ≠ '+' := by
  simp only [isDigit, decide_eq_true_eq] at h
  refine ⟨?_, ?_⟩ <;> rintro rfl <;> revert h <;> decide

/-- Reading changes neither the output streams, nor the commands run, nor
the record of installer calls. -/
theorem cinReadSizeT_frame (w : World) :
    (cinReadSizeT w).2.cout = w.cout ∧ (cinReadSizeT w).2.cerr = w.cerr ∧
      (cinReadSizeT w).2.cmds = w.cmds ∧ (cinReadSizeT w).2.installs = w.installs := by
  unfold cinReadSizeT
  split_ifs <;> simp

/-- The longest digit run of a text that starts with the digits `ds` followed
by something that is not a digit is `ds`. -/
theorem takeWhile_digits (ds rest : Str) (hds : ∀ x ∈ ds, isDigit x = true)
    (hrest : ∀ x ∈ rest.head?, isDigit x = false) :
    (ds ++ rest).takeWhile isDigit = ds := by
  have htake_rest : rest.takeWhile isDigit = [] := by
    cases rest with
    | nil => rfl
    | cons r rs =>
      have : isDigit r = false := hrest r (by simp)
      simp [List.takeWhile_cons, this]
  rw [@List.takeWhile_append_of_pos Char isDigit ds rest hds, htake_rest, List.append_nil]

/-- What the conversion stores for a non-empty digit run without a minus sign:
its value, or `SIZE_MAX` when the value does not fit. -/
theorem convertSizeT_plain (ds : Str) (hne : ds ≠ []) :
    (convertSizeT false ds).1
      = if digitsValue ds > SIZE_MAX then SIZE_MAX else digitsValue ds := by
  unfold convertSizeT
  rw [if_neg hne]
  split_ifs <;> simp_all

/-- What the conversion stores for a non-empty digit run after a minus sign:
the value negated modulo `SIZE_MAX + 1`, or `SIZE_MAX` when the value does
not fit. -/
theorem convertSizeT_minus (ds : Str) (hne : ds ≠ []) :
    (convertSizeT true ds).1
      = if digitsValue ds > SIZE_MAX then SIZE_MAX
        else (SIZE_MAX + 1 - digitsValue ds) % (SIZE_MAX + 1) := by
  unfold convertSizeT
  rw [if_neg hne]
  by_cases h1 : digitsValue ds > SIZE_MAX
  · rw [if_pos h1, if_pos h1]
  · rw [if_neg h1, if_neg h1]
    rfl

/-- Reading an input that begins with a numeral stores what the conversion
gives for its sign and digits. -/
theorem cinReadSizeT_numeral (w : World) (neg : Bool) (ds : Str) (hgood : w.cinFail = false)
    (h : beginsWithNumeral w.cin neg ds) :
    (cinReadSizeT w).1 = (convertSizeT neg ds).1 := by
  obtain ⟨ws, sign, rest, hin, hws, hsign, hne, hds, hrest⟩ := h
  obtain ⟨d, ds2, rfl⟩ : ∃ d ds2, ds = d :: ds2 := by
    cases ds with
    | nil => exact absurd rfl hne
    | cons d ds2 => exact ⟨d, ds2, rfl⟩
  have hd : isDigit d = true := hds d (by simp)
  have hsp : isSpace d = false := isSpace_of_isDigit d hd
  have htake := takeWhile_digits (d :: ds2) rest hds hrest
  obtain ⟨hm, hp⟩ := not_sign_of_isDigit d hd
  rcases hsign with ⟨rfl, rfl⟩ | ⟨rfl, rfl⟩ | ⟨rfl, rfl⟩
  · have hdrop : w.cin.dropWhile isSpace = d :: ds2 ++ rest := by
      rw [hin, List.append_nil, List.append_assoc, List.dropWhile_append_of_pos hws]
      simp [List.dropWhile_cons, hsp]
    unfold cinReadSizeT
    simp only [hgood, hdrop, List.cons_append, List.head?_cons, Option.some.injEq, hm, hp,
      or_self, if_false, Bool.false_eq_true, decide_False]
    rw [← List.cons_append, htake]
  · have hplus : isSpace '+' = false := by decide
    have hdrop : w.cin.dropWhile isSpace = '+' :: (d :: ds2 ++ rest) := by
      rw [hin, List.append_assoc, List.append_assoc, List.dropWhile_append_of_pos hws]
      simp [List.dropWhile_cons, hplus]
    have hneg : decide (some '+' = some '-') = false := by decide
    unfold cinReadSizeT
    simp only [hgood, hdrop, List.head?_cons, or_true, if_true, List.tail_cons, hneg,
      Bool.false_eq_true, if_false]
    rw [htake]
  · have hminus : isSpace '-' = false := by decide
    have hdrop : w.cin.dropWhile isSpace = '-' :: (d :: ds2 ++ rest) := by
      rw [hin, List.append_assoc, List.append_assoc, List.dropWhile_append_of_pos hws]
      simp [List.dropWhile_cons, hminus]
    unfold cinReadSizeT
    simp only [hgood, hdrop, List.head?_cons, true_or, if_true, List.tail_cons, decide_True,
      Bool.false_eq_true, if_false]
    rw [htake]

/-- Reading an input without a leading numeral leaves 0 in `choice`. -/
theorem cinReadSizeT_no_numeral (w : World) (h : hasLeadingNumeral w.cin = false) :
    (cinReadSizeT w).1 = 0 := by
  unfold cinReadSizeT
  by_cases hf : w.cinFail = true
  · simp [hf]
  · simp only [hf, if_false, Bool.false_eq_true]
    unfold hasLeadingNumeral at h
    cases hs : w.cin.dropWhile isSpace with
    | nil => simp [convertSizeT]
    | cons c t =>
      rw [hs] at h
      rw [Bool.or_eq_false_iff] at h
      obtain ⟨hc, hsign⟩ := h
      by_cases hsg : c = '-' ∨ c = '+'
      · have hs2 : (c == '+' || c == '-') = true := by
          rcases hsg with rfl | rfl <;> decide
        rw [hs2] at hsign
        have htk : t.takeWhile isDigit = [] := by
          cases t with
          | nil => rfl
          | cons d t2 =>
            have hd : isDigit d = false := by simpa using hsign
            simp [List.takeWhile_cons, hd]
        simp [hsg, htk, convertSizeT]
      · have h1 : ¬ (c = '-') := fun h => hsg (Or.inl h)
        have h2 : ¬ (c = '+') := fun h => hsg (Or.inr h)
        simp [h1, h2, List.takeWhile_cons, hc, convertSizeT]

/-- What follows the longest digit run of a text is not a digit. -/
theorem head_dropWhile_digits (s : Str) : ∀ x ∈ (s.dropWhile isDigit).head?, isDigit x = false := by
  intro x hx
  have h := List.head?_dropWhile_not isDigit s
  rw [Option.mem_def] at hx
  rw [hx] at h
  exact h

/-- Every console input either has no leading numeral or begins with one:
the two cases of the extraction leave no input out. -/
theorem numeral_cases (input : Str) :
    hasLeadingNumeral input = false ∨ ∃ neg ds, beginsWithNumeral input neg ds := by
  by_cases h : hasLeadingNumeral input = false
  · exact Or.inl h
  · right
    have hsplit : input = input.takeWhile isSpace ++ input.dropWhile isSpace :=
      (List.takeWhile_append_dropWhile isSpace input).symm
    have hws : ∀ x ∈ input.takeWhile isSpace, isSpace x = true :=
      fun x hx => List.mem_takeWhile_imp hx
    unfold hasLeadingNumeral at h
    cases hs : input.dropWhile isSpace with
    | nil => simp [hs] at h
    | cons c t =>
      rw [hs] at h hsplit
      dsimp only at h
      by_cases hc : isDigit c = true
      · refine ⟨false, (c :: t).takeWhile isDigit, input.takeWhile isSpace, [],
          (c :: t).dropWhile isDigit, ?_, hws, Or.inl ⟨rfl, rfl⟩, ?_, ?_, ?_⟩
        · rw [List.append_nil, List.append_assoc, List.takeWhile_append_dropWhile]
          exact hsplit
        · simp [List.takeWhile_cons, hc]
        · exact fun x hx => List.mem_takeWhile_imp hx
        · exact head_dropWhile_digits (c :: t)
      · have hc2 : isDigit c = false := by simpa using hc
        rw [hc2, Bool.false_or, Bool.not_eq_false, Bool.and_eq_true] at h
        obtain ⟨hsg, ht⟩ := h
        have hne : t.takeWhile isDigit ≠ [] := by
          cases t with
          | nil => simp at ht
          | cons d t2 =>
            have hd : isDigit d = true := ht
            simp [List.takeWhile_cons, hd]
        have hshape : input = input.takeWhile isSpace ++ [c] ++ t.takeWhile isDigit
            ++ t.dropWhile isDigit := by
          rw [List.append_assoc, List.append_assoc, List.takeWhile_append_dropWhile]
          exact hsplit
        have hsign : c = '+' ∨ c = '-' := by simpa using hsg
        rcases hsign with rfl | rfl
        · exact ⟨false, t.takeWhile isDigit, input.takeWhile isSpace, ['+'],
            t.dropWhile isDigit, hshape, hws, Or.inr (Or.inl ⟨rfl, rfl⟩), hne,
            fun x hx => List.mem_takeWhile_imp hx, head_dropWhile_digits t⟩
        · exact ⟨true, t.takeWhile isDigit, input.takeWhile isSpace, ['-'],
            t.dropWhile isDigit, hshape, hws, Or.inr (Or.inr ⟨rfl, rfl⟩), hne,
            fun x hx => List.mem_takeWhile_imp hx, head_dropWhile_digits t⟩

/-! ## Decimal numerals -/

/-- The character of a digit below ten is a decimal digit with that value. -/
theorem digitChar_spec (k : Nat) (hk : k < 10) :
    isDigit (Nat.digitChar k) = true ∧ (Nat.digitChar k).toNat - 48 = k := by
  interval_cases k <;> decide

/-- Appending one digit multiplies the value by ten and adds the digit. -/
theorem digitsValue_snoc (ds : Str) (d : Char) :
    digitsValue (ds ++ [d]) = 10 * digitsValue ds + (d.toNat - 48) := by
  simp [digitsValue, List.foldl_append]

/-- With enough fuel the digit loop of `Nat.toDigits` puts in front of its
accumulator a non-empty run of decimal digits whose value is the number. -/
theorem toDigitsCore_spec (fuel n : Nat) (acc : Str) (h : n < fuel) :
    ∃ ds : Str, Nat.toDigitsCore 10 fuel n acc = ds ++ acc ∧ ds ≠ [] ∧
      (∀ x ∈ ds, isDigit x = true) ∧ digitsValue ds = n := by
  induction fuel generalizing n acc with
  | zero => omega
  | succ fuel ih =>
    obtain ⟨hdig, hval⟩ := digitChar_spec (n % 10) (Nat.mod_lt n (by decide))
    by_cases hq : n / 10 = 0
    · refine ⟨[Nat.digitChar (n % 10)], ?_, by simp, ?_, ?_⟩
      · simp [Nat.toDigitsCore, hq]
      · intro x hx
        rw [List.mem_singleton] at hx
        rw [hx]
        exact hdig
      · have hn : n % 10 = n := by omega
        simp only [digitsValue, List.foldl_cons, List.foldl_nil]
        omega
    · have hlt : n / 10 < fuel := by omega
      obtain ⟨ds, heq, hne, hall, hv⟩ := ih (n / 10) (Nat.digitChar (n % 10) :: acc) hlt
      refine ⟨ds ++ [Nat.digitChar (n % 10)], ?_, by simp, ?_, ?_⟩
      · simp [Nat.toDigitsCore, hq, heq]
      · intro x hx
        rcases List.mem_append.mp hx with hx | hx
        · exact hall x hx
        · rw [List.mem_singleton] at hx
          rw [hx]
          exact hdig
      · rw [digitsValue_snoc, hv, hval]
        omega

/-- The decimal numeral of `c`, followed by the end of the input or by a
character that is not a digit, is a leading numeral of value `c`. -/
theorem beginsWithNumeral_toDigits (c : Nat) (ws rest : Str) (hws : ∀ x ∈ ws, isSpace x = true)
    (hrest : ∀ x ∈ rest.head?, isDigit x = false) :
    ∃ ds : Str, beginsWithNumeral (ws ++ Nat.toDigits 10 c ++ rest) false ds ∧
      digitsValue ds = c := by
  obtain ⟨ds, heq, hne, hall, hv⟩ := toDigitsCore_spec (c + 1) c [] (Nat.lt_succ_self c)
  refine ⟨ds, ⟨ws, [], rest, ?_, hws, Or.inl ⟨rfl, rfl⟩, hne, hall, hrest⟩, hv⟩
  unfold Nat.toDigits
  rw [heq, List.append_nil, List.append_nil]

/-! ## Lemmas on the selection of a package file -/

/-- The test of the "signed" loop holds exactly for the files whose name
contains `signed` under case-insensitive comparison. -/
theorem isSigned_iff (file : Str) : isSigned file = true ↔ nameHasSigned file := by
  unfold isSigned nameHasSigned
  rw [find_isSome_iff]
  constructor
  · rintro ⟨s, t, hst⟩
    unfold toLower at hst
    obtain ⟨l12, post, hl, h12, -⟩ := List.map_eq_append_iff.mp hst.symm
    obtain ⟨pre, mid, hl2, -, hmid⟩ := List.map_eq_append_iff.mp h12
    exact ⟨pre, mid, post, by rw [hl, hl2], hmid⟩
  · rintro ⟨pre, mid, post, hf, hmid⟩
    refine ⟨toLower pre, toLower post, ?_⟩
    rw [hf, ← hmid]
    simp [toLower]

/-- When no file passes the test, the "signed" loop runs to its end. -/
theorem firstSigned_none (apkFiles : List Str) (h : ∀ f ∈ apkFiles, isSigned f = false) :
    firstSigned apkFiles = none := by
  induction apkFiles with
  | nil => rfl
  | cons a rest ih =>
    have ha : isSigned a = false := h a (by simp)
    simp only [firstSigned, ha, Bool.false_eq_true, if_false]
    exact ih (fun f hf => h f (List.mem_cons_of_mem a hf))

/-- With no single candidate and no signed one, `selectApkFile` prompts, reads
a number and checks it. -/
theorem selectApkFile_prompt (apkFiles : List Str) (w : World) (h1 : apkFiles.length ≠ 1)
    (hns : firstSigned apkFiles = none) :
    selectApkFile apkFiles w =
      if (cinReadSizeT (apkPromptWorld apkFiles w)).1 = 0 ∨
          (cinReadSizeT (apkPromptWorld apkFiles w)).1 > apkFiles.length then
        ([], putErr (cinReadSizeT (apkPromptWorld apkFiles w)).2 "Invalid choice.\n".toList)
      else
        (apkFiles.getD ((cinReadSizeT (apkPromptWorld apkFiles w)).1 - 1) [],
          (cinReadSizeT (apkPromptWorld apkFiles w)).2) := by
  unfold selectApkFile apkPromptWorld
  rw [if_neg h1, hns]

/-- Selecting a file calls no installer and runs no command. -/
theorem selectApkFile_frame (apkFiles : List Str) (w : World) :
    (selectApkFile apkFiles w).2.installs = w.installs ∧
      (selectApkFile apkFiles w).2.cmds = w.cmds := by
  by_cases h1 : apkFiles.length = 1
  · simp [selectApkFile, h1]
  · cases hs : firstSigned apkFiles with
    | some file => simp [selectApkFile, h1, hs]
    | none =>
      rw [selectApkFile_prompt apkFiles w h1 hs]
      split_ifs
      · simp only [putErr]
        rw [(cinReadSizeT_frame _).2.2.1, (cinReadSizeT_frame _).2.2.2]
        simp [putOut, apkPromptWorld]
      · simp only []
        rw [(cinReadSizeT_frame _).2.2.1, (cinReadSizeT_frame _).2.2.2]
        simp [putOut, apkPromptWorld]

/-! ## Lemmas on the installer -/

/-- What `getAdbDevices` returns: the parsed list, and a world in which the
listing command has been run; a pipe that cannot be opened is reported. -/
theorem getAdbDevices_eq (env : Env) (w : World) :
    (getAdbDevices env w).1 = devicesOf env ∧
    (devicesOf env ≠ [] →
      (getAdbDevices env w).2 = { w with cmds := w.cmds ++ [adbDevicesCmd] }) ∧
    (getAdbDevices env w).2.cmds = w.cmds ++ [adbDevicesCmd] ∧
    (getAdbDevices env w).2.installs = w.installs := by
  unfold getAdbDevices devicesOf
  cases env.popen adbDevicesCmd <;> simp [putErr]

/-- The last step of `installApk`: what it returns and how it changes the world. -/
theorem runInstall_eq (env : Env) (d p : Str) (w : World) :
    runInstall env d p w =
      (env.system (installCommand d p) == 0,
        { w with
          cout := w.cout ++ ("Running: ".toList ++ installCommand d p ++ "\n".toList)
          cmds := w.cmds ++ [installCommand d p] }) := by
  rfl

/-- The installer stops at the availability check when `adb version` fails. -/
theorem installApk_no_adb (env : Env) (p : Str) (w : World)
    (h : env.system adbVersionCmd ≠ 0) :
    installApk env p w =
      (false, putErr { w with
        installs := w.installs ++ [p]
        cmds := w.cmds ++ [adbVersionCmd] } adbMissingMessage) := by
  simp [installApk, checkAdbInstalled, runSystem, h]

/-- The installer stops after the listing when no device is found. -/
theorem installApk_no_device (env : Env) (p : Str) (w : World)
    (h : env.system adbVersionCmd = 0) (hd : devicesOf env = []) :
    (installApk env p w).1 = false ∧
    (installApk env p w).2.cmds = w.cmds ++ [adbVersionCmd, adbDevicesCmd] ∧
    (installApk env p w).2.installs = w.installs ++ [p] := by
  have hg := getAdbDevices_eq env { w with
    installs := w.installs ++ [p], cmds := w.cmds ++ [adbVersionCmd] }
  obtain ⟨h1, -, h3, h4⟩ := hg
  rw [hd] at h1
  simp only [installApk, checkAdbInstalled, runSystem, h, ne_eq, not_true_eq_false, if_false,
    Bool.not_true, Bool.false_eq_true, h1, List.isEmpty_nil, if_true]
  simp [putErr, h3, h4]

/-- Past the two gates the installer depends only on the device list: the
rest of `installApk`, from the world after the listing. -/
theorem installApk_devices (env : Env) (p : Str) (w : World)
    (h : env.system adbVersionCmd = 0) (hd : devicesOf env ≠ []) :
    installApk env p w =
      if (devicesOf env).length = 1 then
        runInstall env ((devicesOf env).headD []) p (afterListing p w)
      else if (cinReadSizeT (devicePromptWorld (devicesOf env) p w)).1 = 0 ∨
          (cinReadSizeT (devicePromptWorld (devicesOf env) p w)).1 > (devicesOf env).length then
        (false,
          putErr (cinReadSizeT (devicePromptWorld (devicesOf env) p w)).2
            "Invalid choice.\n".toList)
      else
        runInstall env
          ((devicesOf env).getD ((cinReadSizeT (devicePromptWorld (devicesOf env) p w)).1 - 1) [])
          p (cinReadSizeT (devicePromptWorld (devicesOf env) p w)).2 := by
  have hg := getAdbDevices_eq env { w with
    installs := w.installs ++ [p], cmds := w.cmds ++ [adbVersionCmd] }
  obtain ⟨h1, h2, -, -⟩ := hg
  have h2 := h2 hd
  have hne : (devicesOf env).isEmpty = false := by
    cases hdv : devicesOf env with
    | nil => exact absurd hdv hd
    | cons a t => rfl
  simp only [installApk, checkAdbInstalled, runSystem, h, ne_eq, not_true_eq_false, if_false,
    Bool.not_true, Bool.false_eq_true, h1, h2, hne]
  simp only [devicePromptWorld, afterListing, List.append_assoc, List.singleton_append]

/-- Every call of the installer is recorded, once. -/
theorem installApk_installs (env : Env) (p : Str) (w : World) :
    (installApk env p w).2.installs = w.installs ++ [p] := by
  by_cases h : env.system adbVersionCmd = 0
  · by_cases hd : devicesOf env = []
    · exact (installApk_no_device env p w h hd).2.2
    · rw [installApk_devices env p w h hd]
      split_ifs
      · simp [runInstall_eq, afterListing]
      · simp [putErr, (cinReadSizeT_frame _).2.2.2, devicePromptWorld, putOut, afterListing]
      · simp [runInstall_eq, (cinReadSizeT_frame _).2.2.2, devicePromptWorld, putOut,
          afterListing]
  · rw [installApk_no_adb env p w h]
    simp [putErr]

/-! ## Lemmas on the directory scan -/

/-- The scan as a filter and a map: the paths of the entries that are regular
files with a lowercased extension `.apk`, in traversal order. -/
theorem findApkFiles_eq (env : Env) (dirPath : Str) :
    findApkFiles env dirPath =
      ((env.walk dirPath).filter (fun entry =>
        decide (entry.type = FileType.regular)
          && decide (toLower (extension entry.path) = ".apk".toList))).map
        (fun entry => entry.path) := by
  unfold findApkFiles
  rw [foldl_push_eq (fun entry : DirEntry => entry.isRegularFile
      && toLower (extension entry.path) == ".apk".toList) (fun entry : DirEntry => entry.path)]
  rw [List.nil_append]
  congr 2
  funext entry
  have h1 : entry.isRegularFile = decide (entry.type = FileType.regular) := by
    unfold DirEntry.isRegularFile
    rw [Bool.eq_iff_iff, beq_iff_eq, decide_eq_true_eq]
  have h2 : (toLower (extension entry.path) == ".apk".toList)
      = decide (toLower (extension entry.path) = ".apk".toList) := by
    rw [Bool.eq_iff_iff, beq_iff_eq, decide_eq_true_eq]
  rw [h1, h2]

/-- Every path the scan returns has the lowercased extension `.apk`. -/
theorem extension_of_mem_findApkFiles (env : Env) (dirPath a : Str)
    (h : a ∈ findApkFiles env dirPath) : toLower (extension a) = ".apk".toList := by
  rw [findApkFiles_eq] at h
  obtain ⟨entry, hentry, rfl⟩ := List.mem_map.mp h
  have hp := (List.mem_filter.mp hentry).2
  rw [Bool.and_eq_true, decide_eq_true_eq, decide_eq_true_eq] at hp
  exact hp.2

/-- A path with the lowercased extension `.apk` is not the empty path. -/
theorem ne_nil_of_extension (a : Str) (h : toLower (extension a) = ".apk".toList) : a ≠ [] := by
  rintro rfl
  revert h
  decide

/-- The file the "signed" loop returns is one of the candidates. -/
theorem firstSigned_mem (apkFiles : List Str) (file : Str)
    (h : firstSigned apkFiles = some file) : file ∈ apkFiles := by
  induction apkFiles with
  | nil => simp [firstSigned] at h
  | cons a rest ih =>
    by_cases ha : isSigned a = true
    · simp only [firstSigned, ha, if_true, Option.some.injEq] at h
      rw [← h]
      exact List.mem_cons_self a rest
    · simp only [firstSigned, ha, if_false] at h
      exact List.mem_cons_of_mem a (ih h)

/-- The selection returns the empty path or one of the candidates. -/
theorem selectApkFile_mem (apkFiles : List Str) (w : World) :
    (selectApkFile apkFiles w).1 = [] ∨ (selectApkFile apkFiles w).1 ∈ apkFiles := by
  by_cases h1 : apkFiles.length = 1
  · right
    cases apkFiles with
    | nil => simp at h1
    | cons a t => simp [selectApkFile, h1]
  · cases hs : firstSigned apkFiles with
    | some file =>
      right
      have := firstSigned_mem apkFiles file hs
      simpa [selectApkFile, h1, hs] using this
    | none =>
      rw [selectApkFile_prompt apkFiles w h1 hs]
      split_ifs with hcond
      · exact Or.inl rfl
      · right
        have hlt : (cinReadSizeT (apkPromptWorld apkFiles w)).1 - 1 < apkFiles.length := by omega
        simp only [List.getD_eq_getElem?_getD, List.getElem?_eq_getElem hlt, Option.getD_some]
        exact List.getElem_mem _

/-- Directory mode past its two checks: select among the scan result, then
give up on the empty path or call the installer with the chosen path. -/
theorem handleDirectoryOption_proceeds (env : Env) (dirPath : Str) (w : World)
    (hdir : isDirectory env dirPath = true) (hne : findApkFiles env dirPath ≠ []) :
    handleDirectoryOption env dirPath w =
      if (selectApkFile (findApkFiles env dirPath) w).1 = [] then
        (false, putErr (selectApkFile (findApkFiles env dirPath) w).2 "No APK selected.\n".toList)
      else
        installApk env (selectApkFile (findApkFiles env dirPath) w).1
          (putOut (selectApkFile (findApkFiles env dirPath) w).2
            ("Using APK file: ".toList
              ++ quoted (selectApkFile (findApkFiles env dirPath) w).1 ++ "\n".toList)) := by
  have hemp : (findApkFiles env dirPath).isEmpty = false := by
    cases hf : findApkFiles env dirPath with
    | nil => exact absurd hf hne
    | cons a t => rfl
  unfold handleDirectoryOption
  simp only [hdir, hemp, Bool.not_true, Bool.false_eq_true, if_false, List.isEmpty_iff]

/-! ## Exit status of `main` -/

/-- C1: `main` returns 1 exactly when the number of tokens after the program
name is not two; with two tokens it returns 2 exactly when the first is
neither `-f` nor `-d`; with `-f` (with `-d`) it returns 0 when
`handleFileOption` (`handleDirectoryOption`) reports success and 3 when it
reports failure, leaving the world as the handler left it; and the status is
always one of 0, 1, 2, 3. -/
theorem main_exit_status (env : Env) (progName : Str) (args : List Str) (w : World) :
    ((main env progName args w).1 = 1 ↔ args.length ≠ 2) ∧
    (args.length = 2 →
      ((main env progName args w).1 = 2 ↔
        (args.getD 0 [] ≠ "-f".toList ∧ args.getD 0 [] ≠ "-d".toList))) ∧
    (∀ path : Str, args = ["-f".toList, path] →
      main env progName args w =
        (if (handleFileOption env path w).1 then 0 else 3, (handleFileOption env path w).2)) ∧
    (∀ path : Str, args = ["-d".toList, path] →
      main env progName args w =
        (if (handleDirectoryOption env path w).1 then 0 else 3,
          (handleDirectoryOption env path w).2)) ∧
    ((main env progName args w).1 = 0 ∨ (main env progName args w).1 = 1 ∨
      (main env progName args w).1 = 2 ∨ (main env progName args w).1 = 3) := by
  by_cases hlen : args.length = 2
  · obtain ⟨option, path, rfl⟩ : ∃ a b, args = [a, b] := by
      match args, hlen with
      | [a, b], _ => exact ⟨a, b, rfl⟩
    by_cases hf : option = "-f".toList
    · subst hf
      cases hr : (handleFileOption env path w).1 <;> simp [main, hr]
    · by_cases hd : option = "-d".toList
      · subst hd
        cases hr : (handleDirectoryOption env path w).1 <;> simp [main, hr]
      · have hf2 : ¬ option = ['-', 'f'] := hf
        have hd2 : ¬ option = ['-', 'd'] := hd
        simp [main, hf2, hd2]
  · have h3 : args.length + 1 ≠ 3 := by omega
    simp [main, h3, hlen]
    refine ⟨?_, ?_⟩ <;> intro path h <;> simp [h] at hlen

/-! ## File mode and directory mode -/

/-- What file mode does with a path: it hands the path to the installer
exactly when the path exists (as a file of any type) and its lowercased
extension is `.apk`, and otherwise returns false without calling the
installer. -/
theorem handleFileOption_validation (env : Env) (filePath : Str) (w : World) :
    (fsExists env filePath = true ∧ toLower (extension filePath) = ".apk".toList →
      handleFileOption env filePath w =
        installApk env filePath
          (putOut w ("Using APK file: ".toList ++ quoted filePath ++ "\n".toList))) ∧
    (¬ (fsExists env filePath = true ∧ toLower (extension filePath) = ".apk".toList) →
      (handleFileOption env filePath w).1 = false ∧
      (handleFileOption env filePath w).2.installs = w.installs ∧
      (handleFileOption env filePath w).2.cmds = w.cmds) := by
  constructor
  · rintro ⟨he, hx⟩
    simp [handleFileOption, he, hx]
  · intro h
    by_cases he : fsExists env filePath = true
    · have hx : ¬ toLower (extension filePath) = ".apk".toList := fun hx => h ⟨he, hx⟩
      have hx2 : toLower (extension filePath) ≠ ".apk".toList := hx
      unfold handleFileOption
      rw [if_neg (by simp [he]), if_pos hx2]
      simp [putErr]
    · unfold handleFileOption
      rw [if_pos (by simpa using he)]
      simp [putErr]

/-- C2 (the code at the failing input): `/work/pkgs.apk` is a directory, not a
regular file, yet file mode accepts it, calls the installer with it, runs the
install command for it and reports success. -/
theorem handleFileOption_accepts_directory :
    isRegularFile sampleEnv "/work/pkgs.apk".toList = false ∧
    (handleFileOption sampleEnv "/work/pkgs.apk".toList (sampleWorld "1\n".toList)).1 = true ∧
    (handleFileOption sampleEnv "/work/pkgs.apk".toList (sampleWorld "1\n".toList)).2.installs
      = ["/work/pkgs.apk".toList] ∧
    (handleFileOption sampleEnv "/work/pkgs.apk".toList (sampleWorld "1\n".toList)).2.cmds
      = ["adb version >/dev/null 2>&1".toList, "adb devices".toList,
          "adb -s \"emulator-5554\" install \"/work/pkgs.apk\"".toList] := by
  decide

/-- C10: every path handed to the installer has a lowercased extension
`.apk`.  File mode either does not call the installer or calls it once, with
its argument, whose extension then is `.apk`; directory mode either does
not call it or calls it once, with a path that is a member of the list
`findApkFiles` returned, is not the empty path, and has the extension
`.apk`, whatever the traversal lists and whatever the console holds. -/
theorem installer_argument_has_apk_extension (env : Env) (path : Str) (w : World) :
    ((handleFileOption env path w).2.installs = w.installs ∨
      ((handleFileOption env path w).2.installs = w.installs ++ [path] ∧
        toLower (extension path) = ".apk".toList)) ∧
    ((handleDirectoryOption env path w).2.installs = w.installs ∨
      ∃ a ∈ findApkFiles env path, a ≠ [] ∧ toLower (extension a) = ".apk".toList ∧
        (handleDirectoryOption env path w).2.installs = w.installs ++ [a]) := by
  constructor
  · by_cases h : fsExists env path = true ∧ toLower (extension path) = ".apk".toList
    · right
      rw [(handleFileOption_validation env path w).1 h, installApk_installs]
      exact ⟨rfl, h.2⟩
    · left
      exact ((handleFileOption_validation env path w).2 h).2.1
  · by_cases hdir : isDirectory env path = true
    · by_cases hemp : findApkFiles env path = []
      · left
        unfold handleDirectoryOption
        rw [if_neg (by simp [hdir])]
        simp only [hemp, List.isEmpty_nil, if_true]
        rfl
      · rw [handleDirectoryOption_proceeds env path w hdir hemp]
        have hfr := (selectApkFile_frame (findApkFiles env path) w).1
        by_cases hsel : (selectApkFile (findApkFiles env path) w).1 = []
        · left
          rw [if_pos hsel]
          exact hfr
        · right
          rw [if_neg hsel]
          have hmem : (selectApkFile (findApkFiles env path) w).1 ∈ findApkFiles env path := by
            rcases selectApkFile_mem (findApkFiles env path) w with h | h
            · exact absurd h hsel
            · exact h
          refine ⟨_, hmem, hsel, extension_of_mem_findApkFiles env path _ hmem, ?_⟩
          rw [installApk_installs]
          simp only [putOut]
          rw [hfr]
    · left
      unfold handleDirectoryOption
      rw [if_pos (by simpa using hdir)]
      rfl

/-! ## Selection among package files -/

/-- Directory mode gives up whenever the selection among at least one
candidate returns the empty path. -/
theorem selectionRejected_of_empty (apkFiles : List Str) (w : World) (hne : apkFiles ≠ [])
    (hsel : (selectApkFile apkFiles w).1 = []) : selectionRejected apkFiles w := by
  refine ⟨hsel, ?_⟩
  intro env dirPath hdir hscan
  have hne2 : (findApkFiles env dirPath).isEmpty = false := by
    rw [hscan]
    cases apkFiles with
    | nil => exact absurd rfl hne
    | cons a t => rfl
  have hval : handleDirectoryOption env dirPath w
      = (false, putErr (selectApkFile apkFiles w).2 "No APK selected.\n".toList) := by
    unfold handleDirectoryOption
    simp only [hdir, hne2, Bool.not_true, Bool.false_eq_true, if_false]
    rw [hscan]
    simp [hsel]
  rw [hval]
  obtain ⟨hi, hc⟩ := selectApkFile_frame apkFiles w
  simp [putErr, hi, hc]

/-- C5: with exactly one candidate `selectApkFile` returns it, signed or not,
in every world, and leaves the world untouched: the console input is not
consulted and no prompt is printed. -/
theorem selectApkFile_single (file : Str) :
    (∀ w : World, selectApkFile [file] w = (file, w)) ∧
    ∀ w1 w2 : World, (selectApkFile [file] w1).1 = (selectApkFile [file] w2).1 := by
  have h : ∀ w : World, selectApkFile [file] w = (file, w) := by
    intro w
    simp [selectApkFile]
  exact ⟨h, fun w1 w2 => by rw [h w1, h w2]⟩

/-- C6 (as amended): with `n ≥ 2` candidates, none of them signed (fewer than
`SIZE_MAX` of them, as in any vector, and a console whose fail bit is clear),
the numbered prompt is printed once and the choice is read from the front of
the console input, whatever follows the digits.  Every input falls under one
of these cases.  An input with no leading numeral is rejected: `selectApkFile`
returns the empty path and `handleDirectoryOption` fails without installing
or prompting again.  An input beginning with a numeral of value `c` without a
minus sign is rejected when `c = 0` or `c > n`, and selects the candidate at
index `c - 1` when `1 ≤ c ≤ n`.  After a minus sign the value is negated
modulo `SIZE_MAX + 1`: the input is rejected when `c = 0`, `c > SIZE_MAX` or
`SIZE_MAX + 1 - c > n`, and otherwise selects the candidate at index
`SIZE_MAX - c`. -/
theorem selectApkFile_numbered_choice (apkFiles : List Str) (w : World)
    (hn : 2 ≤ apkFiles.length) (hmax : apkFiles.length < SIZE_MAX)
    (hns : ∀ f ∈ apkFiles, ¬ nameHasSigned f) (hgood : w.cinFail = false) :
    (hasLeadingNumeral w.cin = false ∨ ∃ neg ds, beginsWithNumeral w.cin neg ds) ∧
    (hasLeadingNumeral w.cin = false → selectionRejected apkFiles w) ∧
    (∀ ds : Str, beginsWithNumeral w.cin false ds →
      (digitsValue ds = 0 ∨ apkFiles.length < digitsValue ds →
        selectionRejected apkFiles w) ∧
      (1 ≤ digitsValue ds → digitsValue ds ≤ apkFiles.length →
        apkFiles[digitsValue ds - 1]? = some (selectApkFile apkFiles w).1)) ∧
    (∀ ds : Str, beginsWithNumeral w.cin true ds →
      (digitsValue ds = 0 ∨ SIZE_MAX < digitsValue ds ∨
          apkFiles.length < SIZE_MAX + 1 - digitsValue ds →
        selectionRejected apkFiles w) ∧
      (1 ≤ digitsValue ds → digitsValue ds ≤ SIZE_MAX →
        SIZE_MAX + 1 - digitsValue ds ≤ apkFiles.length →
        apkFiles[SIZE_MAX - digitsValue ds]? = some (selectApkFile apkFiles w).1)) ∧
    (selectApkFile apkFiles w).2.cout
      = w.cout ++ promptText "Multiple APK files found:\n".toList
          "Select APK to use (1-".toList quoted apkFiles := by
  have h1 : apkFiles.length ≠ 1 := by omega
  have hne : apkFiles ≠ [] := by
    intro h
    rw [h] at hn
    simp at hn
  have hnone : firstSigned apkFiles = none := by
    apply firstSigned_none
    intro f hf
    cases hsf : isSigned f with
    | false => rfl
    | true => exact absurd ((isSigned_iff f).mp hsf) (hns f hf)
  have hsel := selectApkFile_prompt apkFiles w h1 hnone
  have hsmax : SIZE_MAX = 18446744073709551615 := by decide
  -- the two outcomes, by the value stored in `choice`
  have hrej : ∀ v : Nat, (cinReadSizeT (apkPromptWorld apkFiles w)).1 = v →
      v = 0 ∨ v > apkFiles.length → selectionRejected apkFiles w := by
    intro v hv hbad
    apply selectionRejected_of_empty apkFiles w hne
    rw [hsel, hv, if_pos hbad]
  have hacc : ∀ v : Nat, (cinReadSizeT (apkPromptWorld apkFiles w)).1 = v →
      1 ≤ v → v ≤ apkFiles.length → apkFiles[v - 1]? = some (selectApkFile apkFiles w).1 := by
    intro v hv hlo hhi
    have hcond : ¬ (v = 0 ∨ v > apkFiles.length) := by omega
    have hlt : v - 1 < apkFiles.length := by omega
    rw [hsel, hv, if_neg hcond]
    simp [List.getD_eq_getElem?_getD, List.getElem?_eq_getElem hlt]
  refine ⟨numeral_cases w.cin, ?_, ?_, ?_, ?_⟩
  · intro hno
    exact hrej 0 (cinReadSizeT_no_numeral (apkPromptWorld apkFiles w) hno) (Or.inl rfl)
  · intro ds hds
    have hdne : ds ≠ [] := by
      obtain ⟨_, _, _, _, _, _, h, _⟩ := hds
      exact h
    have hr := cinReadSizeT_numeral (apkPromptWorld apkFiles w) false ds hgood hds
    rw [convertSizeT_plain ds hdne] at hr
    constructor
    · intro hbad
      apply hrej _ hr
      split_ifs with hbig
      · exact Or.inr hmax
      · rcases hbad with h0 | hgt
        · exact Or.inl h0
        · exact Or.inr hgt
    · intro hlo hhi
      have hsmall : ¬ digitsValue ds > SIZE_MAX := by omega
      rw [if_neg hsmall] at hr
      exact hacc _ hr hlo hhi
  · intro ds hds
    have hdne : ds ≠ [] := by
      obtain ⟨_, _, _, _, _, _, h, _⟩ := hds
      exact h
    have hr := cinReadSizeT_numeral (apkPromptWorld apkFiles w) true ds hgood hds
    rw [convertSizeT_minus ds hdne] at hr
    constructor
    · intro hbad
      apply hrej _ hr
      split_ifs with hbig
      · exact Or.inr hmax
      · rw [hsmax] at hbig hmax ⊢
        rcases hbad with h0 | hgt | hgt
        · left
          rw [h0]
        · rw [hsmax] at hgt
          omega
        · rw [hsmax] at hgt
          by_cases h0 : digitsValue ds = 0
          · left
            rw [h0]
          · right
            omega
    · intro hlo hhi hfit
      have hsmall : ¬ digitsValue ds > SIZE_MAX := by omega
      rw [if_neg hsmall] at hr
      have hv : (SIZE_MAX + 1 - digitsValue ds) % (SIZE_MAX + 1)
          = SIZE_MAX + 1 - digitsValue ds := by
        apply Nat.mod_eq_of_lt
        omega
      rw [hv] at hr
      have hidx : SIZE_MAX + 1 - digitsValue ds - 1 = SIZE_MAX - digitsValue ds := by omega
      have := hacc _ hr (by omega) hfit
      rw [hidx] at this
      exact this
  · rw [hsel]
    split_ifs
    · simp only [putErr]
      rw [(cinReadSizeT_frame _).1]
      rfl
    · simp only []
      rw [(cinReadSizeT_frame _).1]
      rfl

/-- Witness for C6 (as amended): two unsigned candidates and the input
`2abc`, which begins with the numeral `2` and so selects the second. -/
theorem selectApkFile_numbered_choice_witness :
    (2 ≤ ["/d/a.apk".toList, "/d/b.apk".toList].length ∧
      ["/d/a.apk".toList, "/d/b.apk".toList].length < SIZE_MAX ∧
      (∀ f ∈ ["/d/a.apk".toList, "/d/b.apk".toList], ¬ nameHasSigned f) ∧
      (sampleWorld "2abc\n".toList).cinFail = false) ∧
    (selectApkFile ["/d/a.apk".toList, "/d/b.apk".toList] (sampleWorld "2abc\n".toList)).1
      = "/d/b.apk".toList := by
  have hns : ∀ f ∈ ["/d/a.apk".toList, "/d/b.apk".toList], ¬ nameHasSigned f := by
    intro f hf hs
    have hsig := (isSigned_iff f).mpr hs
    rcases List.mem_cons.mp hf with rfl | hf
    · revert hsig
      decide
    · rcases List.mem_cons.mp hf with rfl | hf
      · revert hsig
        decide
      · simp at hf
  have hp : beginsWithNumeral (sampleWorld "2abc\n".toList).cin false ['2'] :=
    ⟨[], [], "abc\n".toList, rfl, by simp, Or.inl ⟨rfl, rfl⟩, by simp, by decide, by decide⟩
  have h := ((selectApkFile_numbered_choice ["/d/a.apk".toList, "/d/b.apk".toList]
    (sampleWorld "2abc\n".toList) (by decide) (by decide) hns rfl).2.2.1 ['2'] hp).2
    (by decide) (by decide)
  refine ⟨⟨by decide, by decide, hns, rfl⟩, ?_⟩
  have h2 : some "/d/b.apk".toList
      = some (selectApkFile ["/d/a.apk".toList, "/d/b.apk".toList]
          (sampleWorld "2abc\n".toList)).1 := h
  exact (Option.some.inj h2).symm

/-- Counterexample to C6 as stated: at the numbered prompt for two unsigned
candidates the token `2abc` is no integer numeral, yet `selectApkFile` does
not return the empty path: it returns the second candidate. -/
theorem selectApkFile_accepts_2abc :
    isSigned "/d/a.apk".toList = false ∧ isSigned "/d/b.apk".toList = false ∧
    firstToken "2abc\n".toList = "2abc".toList ∧ isIntegerToken "2abc".toList = false ∧
    (selectApkFile ["/d/a.apk".toList, "/d/b.apk".toList] (sampleWorld "2abc\n".toList)).1
      = "/d/b.apk".toList ∧
    (selectApkFile ["/d/a.apk".toList, "/d/b.apk".toList] (sampleWorld "2abc\n".toList)).1
      ≠ [] := by
  decide

/-! ## Parsing the device listing -/

/-- The parse step as a filter and a map: the lines that contain `device` and
do not contain `List`, each cut before its first tab. -/
theorem parseDevices_eq (text : Str) :
    parseDevices text =
      ((getlines text).filter (fun line =>
        decide ("device".toList <:+: line) && decide (¬ "List".toList <:+: line))).map
        (fun line => line.takeWhile (fun c => c != '\t')) := by
  unfold parseDevices
  rw [foldl_push_eq (fun line => (find line "device".toList).isSome
      && (find line "List".toList).isNone) (fun line => substr0 line (findChar line '\t'))]
  rw [List.nil_append]
  congr 1
  · funext line
    exact substr0_findChar line '\t'
  · congr 1
    funext line
    rw [find_isSome_eq, find_isNone_eq]

/-- A data line `serial<TAB>device` contains `List` only when the serial does. -/
theorem no_List_in_data_line (s : Str) (h : ¬ "List".toList <:+: s) :
    ¬ "List".toList <:+: s ++ "\tdevice".toList := by
  rintro ⟨a, b, hab⟩
  have hsplit : (a ++ ['L', 'i', 's']) ++ 't' :: b = s ++ "\tdevice".toList := by
    rw [← hab]
    simp
  rcases List.append_eq_append_iff.mp hsplit with ⟨c, hc1, hc2⟩ | ⟨c, hc1, hc2⟩
  · cases c with
    | nil =>
      have hhead := congrArg List.head? hc2
      simp at hhead
    | cons x c2 =>
      have hx : 't' = x := by
        have := congrArg List.head? hc2
        simpa using this
      apply h
      refine ⟨a, c2, ?_⟩
      rw [hc1, ← hx]
      simp
  · have hmem : 't' ∈ "\tdevice".toList := by
      rw [hc2]
      simp
    exact absurd hmem (by decide)

/-- The lines of a listing made of data lines `serial<TAB>device`, each ended
by a newline. -/
theorem getlines_data_lines (serials : List Str) (hs : ∀ s ∈ serials, '\n' ∉ s) :
    getlines (serials.flatMap (fun s => s ++ "\tdevice\n".toList))
      = serials.map (fun s => s ++ "\tdevice".toList) := by
  induction serials with
  | nil => rfl
  | cons s rest ih =>
    have hline : '\n' ∉ s ++ "\tdevice".toList := by
      intro hm
      rcases List.mem_append.mp hm with hm | hm
      · exact hs s (by simp) hm
      · exact absurd hm (by decide)
    have hrest := ih (fun t ht => hs t (List.mem_cons_of_mem s ht))
    have hshape : (s :: rest).flatMap (fun s => s ++ "\tdevice\n".toList)
        = (s ++ "\tdevice".toList) ++ '\n' :: rest.flatMap (fun s => s ++ "\tdevice\n".toList) := by
      simp [List.flatMap_cons]
    rw [hshape, getlines_line _ _ hline, hrest]
    rfl

/-- C7 (as amended): the parse step of `getAdbDevices` returns, in line order,
one identifier for every line that contains `device` and does not contain
`List`, the identifier being the part of the line before its first tab; so
for a listing made of a header line containing `List` and of data lines
`serial<TAB>device` whose serials contain no tab, no newline and not the
text `List`, the result is exactly the list of serials. -/
theorem parseDevices_spec :
    (∀ text : Str, parseDevices text =
      ((getlines text).filter (fun line =>
        decide ("device".toList <:+: line) && decide (¬ "List".toList <:+: line))).map
        (fun line => line.takeWhile (fun c => c != '\t'))) ∧
    (∀ (header : Str) (serials : List Str), "List".toList <:+: header → '\n' ∉ header →
      (∀ s ∈ serials, '\t' ∉ s ∧ '\n' ∉ s ∧ ¬ "List".toList <:+: s) →
      parseDevices (header ++ '\n' :: serials.flatMap (fun s => s ++ "\tdevice\n".toList))
        = serials) := by
  refine ⟨parseDevices_eq, ?_⟩
  intro header serials hhead hnl hser
  rw [parseDevices_eq, getlines_line _ _ hnl,
    getlines_data_lines serials (fun s hs => (hser s hs).2.1)]
  rw [List.filter_cons]
  simp only [hhead, not_true_eq_false, decide_False, Bool.and_false, Bool.false_eq_true,
    if_false]
  have hkeep : (serials.map (fun s => s ++ "\tdevice".toList)).filter (fun line =>
      decide ("device".toList <:+: line) && decide (¬ "List".toList <:+: line))
      = serials.map (fun s => s ++ "\tdevice".toList) := by
    rw [List.filter_eq_self]
    intro line hline
    obtain ⟨s, hs, rfl⟩ := List.mem_map.mp hline
    have h1 : "device".toList <:+: s ++ "\tdevice".toList := ⟨s ++ ['\t'], [], by simp⟩
    have h2 := no_List_in_data_line s (hser s hs).2.2
    rw [Bool.and_eq_true, decide_eq_true_eq, decide_eq_true_eq]
    exact ⟨h1, h2⟩
  rw [hkeep, List.map_map]
  conv_rhs => rw [← List.map_id serials]
  apply List.map_congr_left
  intro s hs
  have hall : ∀ c ∈ s, (c != '\t') = true := by
    intro c hc
    have : c ≠ '\t' := fun h => (hser s hs).1 (h ▸ hc)
    simp [this]
  have := @List.takeWhile_append_of_pos Char (fun c => c != '\t') s "\tdevice".toList hall
  simp only [Function.comp, id]
  rw [this]
  simp [List.takeWhile_cons]

/-- Witness for C7 (as amended): the usual header and two serials. -/
theorem parseDevices_spec_witness :
    parseDevices ("List of devices attached".toList ++ '\n' ::
        ["emulator-5554".toList, "R58M12345".toList].flatMap
          (fun s => s ++ "\tdevice\n".toList))
      = ["emulator-5554".toList, "R58M12345".toList] :=
  parseDevices_spec.2 "List of devices attached".toList
    ["emulator-5554".toList, "R58M12345".toList] (by decide) (by decide) (by decide)

/-- Counterexample to C7 as stated: a data line whose serial contains `List`
is dropped together with the header, so the result is empty and not the list
of serials. -/
theorem parseDevices_drops_serial_with_List :
    parseDevices ("List of devices attached\nPlayList01\tdevice\n".toList) = [] ∧
    parseDevices ("List of devices attached".toList ++ '\n' ::
        ["PlayList01".toList].flatMap (fun s => s ++ "\tdevice\n".toList))
      ≠ ["PlayList01".toList] := by
  decide

/-! ## The installer -/

/-- With at least two devices the installer prompts, reads a choice and acts
on the value stored: 0 or a value above the number of devices stops it with
no install command; any other value installs on the device at that index
less one, returning true exactly when the install command exits with 0. -/
theorem installApk_by_choice (env : Env) (p : Str) (w : World)
    (h : env.system adbVersionCmd = 0) (hn : 2 ≤ (devicesOf env).length) (v : Nat)
    (hv : (cinReadSizeT (devicePromptWorld (devicesOf env) p w)).1 = v) :
    (v = 0 ∨ v > (devicesOf env).length → noInstallRun env p w) ∧
    (1 ≤ v → v ≤ (devicesOf env).length →
      ∃ d : Str, (devicesOf env)[v - 1]? = some d ∧ installRunsOn env p w d ∧
        ((installApk env p w).1 = true ↔
          env.system ("adb -s \"".toList ++ d ++ "\" install \"".toList ++ p ++ "\"".toList)
            = 0)) := by
  have hne : devicesOf env ≠ [] := by
    intro h0
    rw [h0] at hn
    simp at hn
  have h1 : (devicesOf env).length ≠ 1 := by omega
  have hinst := installApk_devices env p w h hne
  rw [if_neg h1, hv] at hinst
  have hcmds : (cinReadSizeT (devicePromptWorld (devicesOf env) p w)).2.cmds
      = w.cmds ++ [adbVersionCmd, adbDevicesCmd] := by
    rw [(cinReadSizeT_frame _).2.2.1]
    rfl
  constructor
  · intro hbad
    unfold noInstallRun
    rw [hinst, if_pos hbad]
    simp [putErr, hcmds]
  · intro hlo hhi
    have hcond : ¬ (v = 0 ∨ v > (devicesOf env).length) := by omega
    have hlt : v - 1 < (devicesOf env).length := by omega
    refine ⟨(devicesOf env)[v - 1], List.getElem?_eq_getElem hlt, ?_, ?_⟩
    · unfold installRunsOn
      rw [hinst, if_neg hcond, runInstall_eq]
      simp [hcmds, installCommand, List.getD_eq_getElem?_getD, List.getElem?_eq_getElem hlt]
    · rw [hinst, if_neg hcond, runInstall_eq]
      simp [installCommand, List.getD_eq_getElem?_getD, List.getElem?_eq_getElem hlt]

/-- C8 (as amended): for a device list of fewer than `SIZE_MAX` entries, as in
any vector, and a console whose fail bit is clear, `installApk` returns false
and runs no install command when the availability check fails or the device
list is empty; with exactly one device it installs on that device and leaves
the console input alone, printing no prompt; with `n ≥ 2` devices
(signed-looking names included: no device is preferred) the choice is read
from the front of the console input, whatever follows the digits, and every
input falls under one of these cases: an input with no leading numeral
makes it return false with no install command run; an input beginning with a
numeral of value `c` without a minus sign does the same when `c = 0` or
`c > n` and installs on the device at index `c - 1` when `1 ≤ c ≤ n`; after a
minus sign the value is negated modulo `SIZE_MAX + 1`, so the input is
rejected when `c = 0`, `c > SIZE_MAX` or `SIZE_MAX + 1 - c > n` and otherwise
installs on the device at index `SIZE_MAX - c`. -/
theorem installApk_device_resolution (env : Env) (apkFile : Str) (w : World)
    (hmax : (devicesOf env).length < SIZE_MAX) (hgood : w.cinFail = false) :
    (env.system adbVersionCmd ≠ 0 →
      (installApk env apkFile w).1 = false ∧
      (installApk env apkFile w).2.cmds = w.cmds ++ [adbVersionCmd]) ∧
    (env.system adbVersionCmd = 0 → devicesOf env = [] → noInstallRun env apkFile w) ∧
    (env.system adbVersionCmd = 0 → ∀ d : Str, devicesOf env = [d] →
      installRunsOn env apkFile w d ∧
      (installApk env apkFile w).2.cin = w.cin ∧
      (installApk env apkFile w).2.cinFail = w.cinFail ∧
      (installApk env apkFile w).2.cout
        = w.cout ++ ("Running: ".toList
            ++ ("adb -s \"".toList ++ d ++ "\" install \"".toList ++ apkFile ++ "\"".toList)
            ++ "\n".toList)) ∧
    (env.system adbVersionCmd = 0 → 2 ≤ (devicesOf env).length →
      (hasLeadingNumeral w.cin = false ∨ ∃ neg ds, beginsWithNumeral w.cin neg ds) ∧
      (hasLeadingNumeral w.cin = false → noInstallRun env apkFile w) ∧
      (∀ ds : Str, beginsWithNumeral w.cin false ds →
        (digitsValue ds = 0 ∨ (devicesOf env).length < digitsValue ds →
          noInstallRun env apkFile w) ∧
        (1 ≤ digitsValue ds → digitsValue ds ≤ (devicesOf env).length →
          ∃ d : Str, (devicesOf env)[digitsValue ds - 1]? = some d ∧
            installRunsOn env apkFile w d)) ∧
      (∀ ds : Str, beginsWithNumeral w.cin true ds →
        (digitsValue ds = 0 ∨ SIZE_MAX < digitsValue ds ∨
            (devicesOf env).length < SIZE_MAX + 1 - digitsValue ds →
          noInstallRun env apkFile w) ∧
        (1 ≤ digitsValue ds → digitsValue ds ≤ SIZE_MAX →
          SIZE_MAX + 1 - digitsValue ds ≤ (devicesOf env).length →
          ∃ d : Str, (devicesOf env)[SIZE_MAX - digitsValue ds]? = some d ∧
            installRunsOn env apkFile w d))) := by
  have hsmax : SIZE_MAX = 18446744073709551615 := by decide
  refine ⟨?_, ?_, ?_, ?_⟩
  · intro h
    rw [installApk_no_adb env apkFile w h]
    simp [putErr]
  · intro h hd
    exact ⟨(installApk_no_device env apkFile w h hd).1,
      (installApk_no_device env apkFile w h hd).2.1⟩
  · intro h d hd
    have hne : devicesOf env ≠ [] := by simp [hd]
    unfold installRunsOn
    rw [installApk_devices env apkFile w h hne, hd]
    simp [runInstall_eq, afterListing, installCommand]
  · intro h hn
    have hch := fun v hv => installApk_by_choice env apkFile w h hn v hv
    refine ⟨numeral_cases w.cin, ?_, ?_, ?_⟩
    · intro hno
      exact (hch 0 (cinReadSizeT_no_numeral (devicePromptWorld (devicesOf env) apkFile w)
        hno)).1 (Or.inl rfl)
    · intro ds hds
      have hdne : ds ≠ [] := by
        obtain ⟨_, _, _, _, _, _, hx, _⟩ := hds
        exact hx
      have hr := cinReadSizeT_numeral (devicePromptWorld (devicesOf env) apkFile w) false ds
        hgood hds
      rw [convertSizeT_plain ds hdne] at hr
      constructor
      · intro hbad
        apply (hch _ hr).1
        split_ifs with hbig
        · exact Or.inr hmax
        · rcases hbad with h0 | hgt
          · exact Or.inl h0
          · exact Or.inr hgt
      · intro hlo hhi
        have hsmall : ¬ digitsValue ds > SIZE_MAX := by omega
        rw [if_neg hsmall] at hr
        obtain ⟨d, hd, hrun, -⟩ := (hch _ hr).2 hlo hhi
        exact ⟨d, hd, hrun⟩
    · intro ds hds
      have hdne : ds ≠ [] := by
        obtain ⟨_, _, _, _, _, _, hx, _⟩ := hds
        exact hx
      have hr := cinReadSizeT_numeral (devicePromptWorld (devicesOf env) apkFile w) true ds
        hgood hds
      rw [convertSizeT_minus ds hdne] at hr
      constructor
      · intro hbad
        apply (hch _ hr).1
        split_ifs with hbig
        · exact Or.inr hmax
        · rw [hsmax] at hbig hmax ⊢
          rcases hbad with h0 | hgt | hgt
          · left
            rw [h0]
          · rw [hsmax] at hgt
            omega
          · rw [hsmax] at hgt
            by_cases h0 : digitsValue ds = 0
            · left
              rw [h0]
            · right
              omega
      · intro hlo hhi hfit
        have hsmall : ¬ digitsValue ds > SIZE_MAX := by omega
        rw [if_neg hsmall] at hr
        have hv : (SIZE_MAX + 1 - digitsValue ds) % (SIZE_MAX + 1)
            = SIZE_MAX + 1 - digitsValue ds := by
          apply Nat.mod_eq_of_lt
          omega
        rw [hv] at hr
        have hidx : SIZE_MAX + 1 - digitsValue ds - 1 = SIZE_MAX - digitsValue ds := by omega
        obtain ⟨d, hd, hrun, -⟩ := (hch _ hr).2 (by omega) hfit
        rw [hidx] at hd
        exact ⟨d, hd, hrun⟩

/-- Witness for C8 (as amended): two devices listed and the input `2`, which
installs on the second. -/
theorem installApk_device_resolution_witness :
    ((devicesOf sampleEnv).length < SIZE_MAX ∧ (sampleWorld "2\n".toList).cinFail = false) ∧
    (installApk sampleEnv "/work/apks/app-debug.apk".toList (sampleWorld "2\n".toList)).2.cmds
      = ["adb version >/dev/null 2>&1".toList, "adb devices".toList,
          "adb -s \"R58M12345\" install \"/work/apks/app-debug.apk\"".toList] := by
  have hlen : (devicesOf sampleEnv).length < SIZE_MAX := by decide
  have hdev : devicesOf sampleEnv = ["emulator-5554".toList, "R58M12345".toList] := by decide
  have h := (installApk_device_resolution sampleEnv "/work/apks/app-debug.apk".toList
    (sampleWorld "2\n".toList) hlen rfl).2.2.2 rfl (by decide)
  have hp : beginsWithNumeral (sampleWorld "2\n".toList).cin false ['2'] :=
    ⟨[], [], ['\n'], rfl, by simp, Or.inl ⟨rfl, rfl⟩, by simp, by decide, by decide⟩
  obtain ⟨d, hd, hc⟩ := (h.2.2.1 ['2'] hp).2 (by decide) (by decide)
  rw [hdev] at hd
  have hd2 : d = "R58M12345".toList := by
    have hd3 : some "R58M12345".toList = some d := hd
    exact (Option.some.inj hd3).symm
  rw [hd2] at hc
  refine ⟨⟨hlen, rfl⟩, ?_⟩
  unfold installRunsOn at hc
  rw [hc]
  decide

/-- Counterexample to C8 as stated: with two devices listed the token `2abc`
is no integer numeral, yet `installApk` does not return false: it runs the
install command for the second device and returns true. -/
theorem installApk_accepts_2abc :
    devicesOf sampleEnv = ["emulator-5554".toList, "R58M12345".toList] ∧
    firstToken "2abc\n".toList = "2abc".toList ∧ isIntegerToken "2abc".toList = false ∧
    (installApk sampleEnv "/work/apks/app-debug.apk".toList
        (sampleWorld "2abc\n".toList)).1 = true ∧
    (installApk sampleEnv "/work/apks/app-debug.apk".toList
        (sampleWorld "2abc\n".toList)).2.cmds
      = ["adb version >/dev/null 2>&1".toList, "adb devices".toList,
          "adb -s \"R58M12345\" install \"/work/apks/app-debug.apk\"".toList] := by
  decide

/-- C9: the command `installApk` runs for a device `d` and a package path `p`
is the text `adb -s "d" install "p"`, both copied unchanged between double
quotes, and the result is true exactly when that command exits with status 0.
This holds for the closing step `runInstall` in every world; for `installApk`
with exactly one device listed; and for `installApk` with several devices and
a stored choice `v` with `1 ≤ v ≤ n`, where `d` is the device at index
`v - 1`.  In every run that command is the only install command: otherwise
`installApk` returns false and has run only the availability check, or that
and the device listing. -/
theorem installApk_command (env : Env) (p : Str) (w : World) :
    (∀ (d : Str) (w2 : World),
      (runInstall env d p w2).2.cmds
        = w2.cmds ++ ["adb -s \"".toList ++ d ++ "\" install \"".toList ++ p ++ "\"".toList] ∧
      ((runInstall env d p w2).1 = true ↔
        env.system ("adb -s \"".toList ++ d ++ "\" install \"".toList ++ p ++ "\"".toList)
          = 0)) ∧
    (env.system adbVersionCmd = 0 → ∀ d : Str, devicesOf env = [d] →
      (installApk env p w).2.cmds
        = w.cmds ++ [adbVersionCmd, adbDevicesCmd,
            "adb -s \"".toList ++ d ++ "\" install \"".toList ++ p ++ "\"".toList] ∧
      ((installApk env p w).1 = true ↔
        env.system ("adb -s \"".toList ++ d ++ "\" install \"".toList ++ p ++ "\"".toList)
          = 0)) ∧
    (env.system adbVersionCmd = 0 → 2 ≤ (devicesOf env).length →
      ∀ v : Nat, (cinReadSizeT (devicePromptWorld (devicesOf env) p w)).1 = v →
        1 ≤ v → v ≤ (devicesOf env).length →
        ∃ d : Str, (devicesOf env)[v - 1]? = some d ∧
          (installApk env p w).2.cmds
            = w.cmds ++ [adbVersionCmd, adbDevicesCmd,
                "adb -s \"".toList ++ d ++ "\" install \"".toList ++ p ++ "\"".toList] ∧
          ((installApk env p w).1 = true ↔
            env.system ("adb -s \"".toList ++ d ++ "\" install \"".toList ++ p ++ "\"".toList)
              = 0)) ∧
    (((installApk env p w).1 = false ∧
        ((installApk env p w).2.cmds = w.cmds ++ [adbVersionCmd] ∨
          (installApk env p w).2.cmds = w.cmds ++ [adbVersionCmd, adbDevicesCmd])) ∨
      ∃ d ∈ devicesOf env,
        (installApk env p w).2.cmds
          = w.cmds ++ [adbVersionCmd, adbDevicesCmd,
              "adb -s \"".toList ++ d ++ "\" install \"".toList ++ p ++ "\"".toList] ∧
        ((installApk env p w).1 = true ↔
          env.system ("adb -s \"".toList ++ d ++ "\" install \"".toList ++ p ++ "\"".toList)
            = 0)) := by
  have hone : env.system adbVersionCmd = 0 → ∀ d : Str, devicesOf env = [d] →
      (installApk env p w).2.cmds
        = w.cmds ++ [adbVersionCmd, adbDevicesCmd,
            "adb -s \"".toList ++ d ++ "\" install \"".toList ++ p ++ "\"".toList] ∧
      ((installApk env p w).1 = true ↔
        env.system ("adb -s \"".toList ++ d ++ "\" install \"".toList ++ p ++ "\"".toList)
          = 0) := by
    intro h d hd
    have hne : devicesOf env ≠ [] := by simp [hd]
    rw [installApk_devices env p w h hne, hd, runInstall_eq]
    simp [afterListing, installCommand]
  have hmany : env.system adbVersionCmd = 0 → 2 ≤ (devicesOf env).length →
      ∀ v : Nat, (cinReadSizeT (devicePromptWorld (devicesOf env) p w)).1 = v →
        1 ≤ v → v ≤ (devicesOf env).length →
        ∃ d : Str, (devicesOf env)[v - 1]? = some d ∧
          (installApk env p w).2.cmds
            = w.cmds ++ [adbVersionCmd, adbDevicesCmd,
                "adb -s \"".toList ++ d ++ "\" install \"".toList ++ p ++ "\"".toList] ∧
          ((installApk env p w).1 = true ↔
            env.system ("adb -s \"".toList ++ d ++ "\" install \"".toList ++ p ++ "\"".toList)
              = 0) := by
    intro h hn v hv hlo hhi
    exact (installApk_by_choice env p w h hn v hv).2 hlo hhi
  refine ⟨?_, hone, hmany, ?_⟩
  · intro d w2
    rw [runInstall_eq]
    simp [installCommand]
  · by_cases h : env.system adbVersionCmd = 0
    · by_cases hd : devicesOf env = []
      · left
        exact ⟨(installApk_no_device env p w h hd).1,
          Or.inr (installApk_no_device env p w h hd).2.1⟩
      · by_cases h1 : (devicesOf env).length = 1
        · right
          obtain ⟨d, hdd⟩ : ∃ d, devicesOf env = [d] := by
            cases hdv : devicesOf env with
            | nil => exact absurd hdv hd
            | cons a t =>
              rw [hdv] at h1
              cases t with
              | nil => exact ⟨a, rfl⟩
              | cons b t2 => simp at h1
          exact ⟨d, by simp [hdd], hone h d hdd⟩
        · have hn : 2 ≤ (devicesOf env).length := by
            cases hdv : devicesOf env with
            | nil => exact absurd hdv hd
            | cons a t =>
              rw [hdv] at h1
              cases t with
              | nil => simp at h1
              | cons b t2 => simp
          by_cases hcond : (cinReadSizeT (devicePromptWorld (devicesOf env) p w)).1 = 0 ∨
              (cinReadSizeT (devicePromptWorld (devicesOf env) p w)).1 > (devicesOf env).length
          · left
            have hr := (installApk_by_choice env p w h hn _ rfl).1 hcond
            exact ⟨hr.1, Or.inr hr.2⟩
          · right
            obtain ⟨d, hdm, hrest⟩ := hmany h hn _ rfl (by omega) (by omega)
            exact ⟨d, List.getElem?_mem hdm, hrest⟩
    · left
      rw [installApk_no_adb env p w h]
      simp [putErr]

/-- Witness for C9: with two devices listed and the input `1` the install
command for the first device is run, and the result is true where that
command exits with 0 and false where it exits with 1. -/
theorem installApk_command_witness :
    ((installApk sampleEnv "/work/apks/app-debug.apk".toList (sampleWorld "1\n".toList)).2.cmds
        = ["adb version >/dev/null 2>&1".toList, "adb devices".toList,
            "adb -s \"emulator-5554\" install \"/work/apks/app-debug.apk\"".toList] ∧
      (installApk sampleEnv "/work/apks/app-debug.apk".toList
        (sampleWorld "1\n".toList)).1 = true) ∧
    ((installApk sampleEnvInstallFails "/work/apks/app-debug.apk".toList
        (sampleWorld "1\n".toList)).2.cmds
        = ["adb version >/dev/null 2>&1".toList, "adb devices".toList,
            "adb -s \"emulator-5554\" install \"/work/apks/app-debug.apk\"".toList] ∧
      (installApk sampleEnvInstallFails "/work/apks/app-debug.apk".toList
        (sampleWorld "1\n".toList)).1 = false) := by
  have hdev : devicesOf sampleEnv = ["emulator-5554".toList, "R58M12345".toList] := by decide
  have hdev2 : devicesOf sampleEnvInstallFails
      = ["emulator-5554".toList, "R58M12345".toList] := by decide
  obtain ⟨d, hd, hc, hr⟩ := (installApk_command sampleEnv "/work/apks/app-debug.apk".toList
    (sampleWorld "1\n".toList)).2.2.1 rfl (by decide) 1 (by decide) (by decide) (by decide)
  obtain ⟨d2, hd2, hc2, hr2⟩ := (installApk_command sampleEnvInstallFails
    "/work/apks/app-debug.apk".toList (sampleWorld "1\n".toList)).2.2.1 (by decide) (by decide)
    1 (by decide) (by decide) (by decide)
  rw [hdev] at hd
  rw [hdev2] at hd2
  have he : d = "emulator-5554".toList :=
    (Option.some.inj (show some "emulator-5554".toList = some d from hd)).symm
  have he2 : d2 = "emulator-5554".toList :=
    (Option.some.inj (show some "emulator-5554".toList = some d2 from hd2)).symm
  rw [he] at hc hr
  rw [he2] at hc2 hr2
  refine ⟨⟨?_, hr.mpr rfl⟩, ⟨?_, ?_⟩⟩
  · rw [hc]
    decide
  · rw [hc2]
    decide
  · cases hres : (installApk sampleEnvInstallFails "/work/apks/app-debug.apk".toList
        (sampleWorld "1\n".toList)).1 with
    | false => rfl
    | true => exact absurd (hr2.mp hres) (by decide)

end apkInstaller
